import Mathlib

/-!
Shallow embedding of the SalonPro Manager core (src/lib/models/*.py and the
relevant parts of src/lib/cli.py).

Modelling conventions:
* Timestamps are integers counting microseconds since an epoch that falls on
  a midnight, matching Python `datetime`'s microsecond resolution.  A calendar
  date is an integer day index `d`; the day starts at `d * usPerDay`.
* SQLAlchemy sessions are modelled by a `Store` value holding the four entity
  tables as lists.  Attribute assignment on a live ORM object is a functional
  update of the corresponding record in the store; `session.query(...).first()`
  is `List.find?`.  Because SQLAlchemy autoflushes dirty objects, the `Store`
  is the state visible to every subsequent operation, whether or not
  `session.commit()` has run.
* Python exceptions are rendered as `Except String` results; methods that
  signal failure by returning `False` return `Bool`.
* Prices (`Float` columns holding currency amounts) are modelled as `ℚ`.
-/

namespace SalonPro

def usPerMinute : Int := 60000000

def usPerDay : Int := 86400000000

/-- `clients` table row (src/lib/models/client.py). -/
structure Client where
  id : Nat
  first_name : String
  last_name : String
  phone : String
  email : Option String := none
  created_at : Int := 0
  notes : Option String := none
deriving Repr, DecidableEq

/-- `stylists` table row (src/lib/models/stylist.py). -/
structure Stylist where
  id : Nat
  first_name : String
  last_name : String
  phone : String
  email : String
  specialty : Option String := none
  hire_date : Int := 0
  hourly_rate : ℚ := 25
  is_active : Nat := 1
deriving Repr, DecidableEq

/-- `services` table row (src/lib/models/service.py). -/
structure Service where
  id : Nat
  name : String
  description : Option String := none
  duration_minutes : Nat
  price : ℚ
  category : Option String := none
  is_active : Nat := 1
  created_at : Int := 0
deriving Repr, DecidableEq

/-- `appointments` table row (src/lib/models/appointment.py).  `status`
defaults to `"scheduled"` per the column default. -/
structure Appointment where
  id : Nat
  client_id : Nat
  stylist_id : Nat
  service_id : Nat
  appointment_date : Int
  duration_minutes : Nat
  status : String := "scheduled"
  notes : Option String := none
  created_at : Int := 0
  total_price : ℚ
deriving Repr, DecidableEq

/-- `Appointment.end_time`: `appointment_date + timedelta(minutes=duration_minutes)`. -/
def Appointment.end_time (a : Appointment) : Int :=
  a.appointment_date + a.duration_minutes * usPerMinute

/-- `Appointment.is_past`: `appointment_date < datetime.now()`; `now` is explicit. -/
def Appointment.is_past (a : Appointment) (now : Int) : Bool :=
  a.appointment_date < now

/-- `Appointment.is_upcoming`: `not self.is_past and self.status == 'scheduled'`. -/
def Appointment.is_upcoming (a : Appointment) (now : Int) : Bool :=
  !(a.is_past now) && a.status == "scheduled"

/-- The four-value enumeration accepted by `Appointment.validate_status`. -/
def valid_statuses : List String := ["scheduled", "completed", "cancelled", "no-show"]

/-- The `ValueError` message raised by `Appointment.validate_status`. -/
def status_error_msg : String :=
  "Status must be one of: scheduled, completed, cancelled, no-show"

/-- The `ValueError` message raised on a scheduling conflict. -/
def conflict_error_msg : String :=
  "Scheduling conflict! Stylist is already booked at this time."

/-- `Appointment.validate_status` (the `@validates('status')` hook): raises
unless the value is one of the four enumerated statuses. -/
def validate_status (s : String) : Except String String :=
  if s ∈ valid_statuses then .ok s else .error status_error_msg

/-- The session state: the four tables. -/
structure Store where
  clients : List Client
  stylists : List Stylist
  services : List Service
  appointments : List Appointment
deriving Repr, DecidableEq

/-- `Client.find_by_id`. -/
def Client.find_by_id (s : Store) (cid : Nat) : Option Client :=
  s.clients.find? (fun c => c.id == cid)

/-- `Client.get_appointments`: all appointments filtered by `client_id`. -/
def Client.get_appointments (s : Store) (cid : Nat) : List Appointment :=
  s.appointments.filter (fun a => a.client_id == cid)

/-- `Client.delete`: finds the client and issues `session.delete`.  The
relationship `appointments` is declared `cascade="all, delete-orphan"`, so
deleting the client also deletes every appointment whose `client_id`
references it.  Returns `False` when the id is unknown. -/
def Client.delete (s : Store) (cid : Nat) : Store × Bool :=
  match Client.find_by_id s cid with
  | none => (s, false)
  | some _ =>
    ({ s with
        clients := s.clients.filter (fun c => c.id != cid),
        appointments := s.appointments.filter (fun a => a.client_id != cid) },
     true)

/-- `Stylist.find_by_id`. -/
def Stylist.find_by_id (s : Store) (sid : Nat) : Option Stylist :=
  s.stylists.find? (fun st => st.id == sid)

/-- `Stylist.get_appointments`: all appointments filtered by `stylist_id`. -/
def Stylist.get_appointments (s : Store) (sid : Nat) : List Appointment :=
  s.appointments.filter (fun a => a.stylist_id == sid)

/-- `Stylist.delete`: soft delete, unconditionally sets `is_active = 0` on the
stylist when it exists; returns `False` otherwise. -/
def Stylist.delete (s : Store) (sid : Nat) : Store × Bool :=
  match Stylist.find_by_id s sid with
  | none => (s, false)
  | some _ =>
    ({ s with
        stylists := s.stylists.map
          (fun st => if st.id == sid then { st with is_active := 0 } else st) },
     true)

/-- `Service.find_by_id`. -/
def Service.find_by_id (s : Store) (svid : Nat) : Option Service :=
  s.services.find? (fun sv => sv.id == svid)

/-- `Service.get_appointments`: all appointments filtered by `service_id`. -/
def Service.get_appointments (s : Store) (svid : Nat) : List Appointment :=
  s.appointments.filter (fun a => a.service_id == svid)

/-- `Service.delete`: soft delete, unconditionally sets `is_active = 0` on the
service when it exists; returns `False` otherwise. -/
def Service.delete (s : Store) (svid : Nat) : Store × Bool :=
  match Service.find_by_id s svid with
  | none => (s, false)
  | some _ =>
    ({ s with
        services := s.services.map
          (fun sv => if sv.id == svid then { sv with is_active := 0 } else sv) },
     true)

/-- `Appointment.find_by_id`. -/
def Appointment.find_by_id (s : Store) (aid : Nat) : Option Appointment :=
  s.appointments.find? (fun a => a.id == aid)

/-- `Appointment.find_by_date`: filters `start_date <= appointment_date <=
end_date` where `start_date = datetime.combine(date, time.min)` (the day's
midnight) and `end_date = datetime.combine(date, time.max)` (the day's last
representable microsecond, `usPerDay - 1` past midnight). -/
def Appointment.find_by_date (s : Store) (d : Int) : List Appointment :=
  let start_date := d * usPerDay
  let end_date := d * usPerDay + (usPerDay - 1)
  s.appointments.filter
    (fun a => decide (start_date ≤ a.appointment_date) &&
              decide (a.appointment_date ≤ end_date))

/-- `Appointment.find_upcoming`: `appointment_date >= now` and status scheduled. -/
def Appointment.find_upcoming (s : Store) (now : Int) : List Appointment :=
  s.appointments.filter
    (fun a => decide (now ≤ a.appointment_date) && a.status == "scheduled")

/-- `Appointment.has_conflict`: scans the stylist's scheduled appointments,
drops the excluded id when `exclude_id` is truthy (Python `if exclude_id:` is
false for both `None` and `0`), and reports an overlap when
`start_time < appointment_end and end_time > appointment.appointment_date`. -/
def Appointment.has_conflict (s : Store) (stylist_id : Nat) (start_time : Int)
    (duration_minutes : Nat) (exclude_id : Option Nat) : Bool :=
  let end_time := start_time + duration_minutes * usPerMinute
  let appts := s.appointments.filter
    (fun a => a.stylist_id == stylist_id && a.status == "scheduled")
  let appts := match exclude_id with
    | some e => if e = 0 then appts else appts.filter (fun a => a.id != e)
    | none => appts
  appts.any (fun a =>
    decide (start_time < a.end_time) && decide (a.appointment_date < end_time))

/-- The keyword arguments every caller passes to `Appointment.create`
(src/lib/cli.py `schedule_new_appointment`).  The source's
`kwargs.get('duration_minutes', 60)` default never fires because the column is
`nullable=False` and all callers supply the value; `status` is never passed,
so the new row takes the column default `"scheduled"`. -/
structure CreateArgs where
  client_id : Nat
  stylist_id : Nat
  service_id : Nat
  appointment_date : Int
  duration_minutes : Nat
  total_price : ℚ
  notes : Option String := none
deriving Repr, DecidableEq

/-- The autoincrement primary key assigned at insert. -/
def Appointment.next_id (s : Store) : Nat :=
  (s.appointments.map (fun a => a.id)).foldr max 0 + 1

/-- `Appointment.create`: raises the conflict `ValueError` when `has_conflict`
holds for the stylist, time and duration (no exclusion), otherwise inserts the
new row and commits. -/
def Appointment.create (s : Store) (args : CreateArgs) :
    Except String (Store × Appointment) :=
  if Appointment.has_conflict s args.stylist_id args.appointment_date
      args.duration_minutes none then
    .error conflict_error_msg
  else
    let a : Appointment :=
      { id := Appointment.next_id s,
        client_id := args.client_id,
        stylist_id := args.stylist_id,
        service_id := args.service_id,
        appointment_date := args.appointment_date,
        duration_minutes := args.duration_minutes,
        status := "scheduled",
        notes := args.notes,
        total_price := args.total_price }
    .ok ({ s with appointments := s.appointments ++ [a] }, a)

/-- One `key=value` entry of the `**kwargs` dict passed to
`Appointment.update`; the dict is ordered, so kwargs are a list. -/
inductive FieldAssign where
  | set_date (t : Int)
  | set_duration (n : Nat)
  | set_stylist (i : Nat)
  | set_client (i : Nat)
  | set_service (i : Nat)
  | set_status (v : String)
  | set_notes (v : Option String)
  | set_price (p : ℚ)
deriving Repr, DecidableEq

def FieldAssign.is_date : FieldAssign → Bool
  | .set_date _ => true
  | _ => false

def FieldAssign.is_duration : FieldAssign → Bool
  | .set_duration _ => true
  | _ => false

def FieldAssign.is_stylist : FieldAssign → Bool
  | .set_stylist _ => true
  | _ => false

def FieldAssign.is_status : FieldAssign → Bool
  | .set_status _ => true
  | _ => false

/-- `kwargs.get('appointment_date', current)`. -/
def new_date : List FieldAssign → Int → Int
  | [], cur => cur
  | .set_date t :: rest, _ => new_date rest t
  | _ :: rest, cur => new_date rest cur

/-- `kwargs.get('duration_minutes', current)`. -/
def new_duration : List FieldAssign → Nat → Nat
  | [], cur => cur
  | .set_duration n :: rest, _ => new_duration rest n
  | _ :: rest, cur => new_duration rest cur

/-- The `setattr` loop of `Appointment.update`, applied to the live ORM
object.  Assignments are applied left to right; an invalid `status` value
makes the `@validates` hook raise, stopping the loop but keeping every
mutation already applied (SQLAlchemy does not roll the object back). -/
def applyAssigns : Appointment → List FieldAssign → Appointment × Option String
  | a, [] => (a, none)
  | a, f :: rest =>
    match f with
    | .set_date t => applyAssigns { a with appointment_date := t } rest
    | .set_duration n => applyAssigns { a with duration_minutes := n } rest
    | .set_stylist i => applyAssigns { a with stylist_id := i } rest
    | .set_client i => applyAssigns { a with client_id := i } rest
    | .set_service i => applyAssigns { a with service_id := i } rest
    | .set_status v =>
      if v ∈ valid_statuses then applyAssigns { a with status := v } rest
      else (a, some status_error_msg)
    | .set_notes v => applyAssigns { a with notes := v } rest
    | .set_price p => applyAssigns { a with total_price := p } rest

/-- `Appointment.update`: returns `(store after the call, outcome)`.  When the
id is unknown the source returns `None` without touching anything.  When
`appointment_date` or `duration_minutes` is among the kwargs it first re-runs
`has_conflict` against the appointment's *current* `stylist_id` with
`exclude_id=appointment_id`, raising before any mutation.  Otherwise the
`setattr` loop runs on the live object: a failure inside the loop leaves the
mutations made so far in the session (they are flushed by any later commit),
which is why the store component can change even on an error outcome. -/
def Appointment.update (s : Store) (aid : Nat) (assigns : List FieldAssign) :
    Store × Except String (Option Appointment) :=
  match Appointment.find_by_id s aid with
  | none => (s, .ok none)
  | some a =>
    if (assigns.any FieldAssign.is_date || assigns.any FieldAssign.is_duration) &&
        Appointment.has_conflict s a.stylist_id
          (new_date assigns a.appointment_date)
          (new_duration assigns a.duration_minutes) (some aid) then
      (s, .error conflict_error_msg)
    else
      let r := applyAssigns a assigns
      let s2 := { s with appointments :=
        s.appointments.map (fun b => if b.id == aid then r.1 else b) }
      match r.2 with
      | some e => (s2, .error e)
      | none => (s2, .ok (some r.1))

/-- `Appointment.cancel`: soft delete, sets status to `'cancelled'` (always
accepted by the validator) and commits; returns `False` for an unknown id. -/
def Appointment.cancel (s : Store) (aid : Nat) : Store × Bool :=
  match Appointment.find_by_id s aid with
  | none => (s, false)
  | some _ =>
    let l := s.appointments.map
      (fun b => if b.id == aid then { b with status := "cancelled" } else b)
    ({ s with appointments := l }, true)

/-- `Appointment.delete`: hard delete; returns `False` for an unknown id. -/
def Appointment.delete (s : Store) (aid : Nat) : Store × Bool :=
  match Appointment.find_by_id s aid with
  | none => (s, false)
  | some _ =>
    ({ s with appointments := s.appointments.filter (fun a => a.id != aid) }, true)

/-- `Appointment.get_daily_revenue`: sums `total_price` over the day's
appointments whose status is `'completed'`. -/
def Appointment.get_daily_revenue (s : Store) (d : Int) : ℚ :=
  (((Appointment.find_by_date s d).filter (fun a => a.status == "completed")).map
    (fun a => a.total_price)).sum

/-- A single status assignment `appointment.status = v` on a live object: the
`@validates('status')` hook runs before the attribute is written, so a
rejected value leaves the object untouched. -/
def Appointment.assign_status (a : Appointment) (v : String) :
    Except String Appointment :=
  match validate_status v with
  | .error e => .error e
  | .ok v2 => .ok { a with status := v2 }

/-- Status assignment addressed by id, followed by a commit on success
(the shape of `update_appointment_status` in src/lib/cli.py once the id has
been resolved): an invalid value raises in the validator and no record
changes. -/
def set_appointment_status (s : Store) (aid : Nat) (v : String) :
    Store × Except String Unit :=
  match Appointment.find_by_id s aid with
  | none => (s, .ok ())
  | some a =>
    match Appointment.assign_status a v with
    | .error e => (s, .error e)
    | .ok a2 =>
      let l := s.appointments.map (fun b => if b.id == aid then a2 else b)
      ({ s with appointments := l }, .ok ())

/-! CLI-layer flows (src/lib/cli.py), modelled along their confirmed
("yes") paths with the interactive prompts resolved to parameters. -/

/-- `delete_client` (src/lib/cli.py): refuses to delete while the client has
any appointment, otherwise calls `Client.delete`. -/
def cli_delete_client (s : Store) (cid : Nat) : Store × Bool :=
  match Client.find_by_id s cid with
  | none => (s, false)
  | some _ =>
    if (Client.get_appointments s cid).isEmpty then Client.delete s cid
    else (s, false)

/-- `deactivate_stylist` (src/lib/cli.py): refuses while the stylist has any
upcoming appointment (`is_upcoming`: future and scheduled), otherwise sets
`is_active = 0` directly and commits. -/
def cli_deactivate_stylist (s : Store) (now : Int) (sid : Nat) : Store × Bool :=
  match Stylist.find_by_id s sid with
  | none => (s, false)
  | some _ =>
    if (Stylist.get_appointments s sid).any (fun a => a.is_upcoming now) then
      (s, false)
    else
      let l := s.stylists.map
        (fun st => if st.id == sid then { st with is_active := 0 } else st)
      ({ s with stylists := l }, true)

/-- `deactivate_service` (src/lib/cli.py): refuses while the service has any
upcoming appointment, otherwise calls `Service.delete`. -/
def cli_deactivate_service (s : Store) (now : Int) (svid : Nat) : Store × Bool :=
  match Service.find_by_id s svid with
  | none => (s, false)
  | some _ =>
    if (Service.get_appointments s svid).any (fun a => a.is_upcoming now) then
      (s, false)
    else Service.delete s svid

def usPerHour : Int := 3600000000

/-- Hour-of-day of a timestamp (for timestamps at or after the epoch). -/
def hour_of (t : Int) : Int := (t / usPerHour) % 24

/-- `schedule_new_appointment` (src/lib/cli.py): checks that the client
exists, the stylist exists and is active, and the service exists and is
active; then rejects past start times and starts outside 9:00-17:59; then
calls `Appointment.create` with the service's duration and price, catching
the conflict `ValueError` (so a failure returns the store unchanged and no
appointment). -/
def cli_schedule_appointment (s : Store) (now : Int) (cid sid svid : Nat)
    (t : Int) (notes : Option String) : Store × Option Appointment :=
  match Client.find_by_id s cid with
  | none => (s, none)
  | some _ =>
    match Stylist.find_by_id s sid with
    | none => (s, none)
    | some st =>
      if st.is_active != 1 then (s, none)
      else
        match Service.find_by_id s svid with
        | none => (s, none)
        | some sv =>
          if sv.is_active != 1 then (s, none)
          else if t < now then (s, none)
          else if hour_of t < 9 || 18 ≤ hour_of t then (s, none)
          else
            match Appointment.create s
                { client_id := cid, stylist_id := sid, service_id := svid,
                  appointment_date := t,
                  duration_minutes := sv.duration_minutes,
                  total_price := sv.price, notes := notes } with
            | .error _ => (s, none)
            | .ok r => (r.1, some r.2)

/-! The scheduling invariant of spec section 3. -/

/-- Two appointments' half-open intervals `[start, start+duration)` overlap. -/
def overlapping (a b : Appointment) : Prop :=
  a.appointment_date < b.end_time ∧ b.appointment_date < a.end_time

instance (a b : Appointment) : Decidable (overlapping a b) := by
  unfold overlapping; infer_instance

/-- No stylist is double-booked: among the stored appointments, no two with
the same stylist and status `'scheduled'` have overlapping intervals. -/
def no_double_booking (s : Store) : Prop :=
  s.appointments.Pairwise (fun a b =>
    a.stylist_id = b.stylist_id → a.status = "scheduled" →
      b.status = "scheduled" → ¬ overlapping a b)

instance (s : Store) : Decidable (no_double_booking s) := by
  unfold no_double_booking
  infer_instance

/-! Characterization of `Appointment.has_conflict`. -/

theorem has_conflict_characterization (s : Store) (sid : Nat) (t : Int)
    (dur : Nat) (excl : Option Nat) (hpos : ∀ a ∈ s.appointments, a.id ≠ 0) :
    Appointment.has_conflict s sid t dur excl = true ↔
      ∃ a ∈ s.appointments, a.stylist_id = sid ∧ a.status = "scheduled" ∧
        (∀ e, excl = some e → a.id ≠ e) ∧
        t < a.appointment_date + a.duration_minutes * usPerMinute ∧
        a.appointment_date < t + dur * usPerMinute := by
  unfold Appointment.has_conflict Appointment.end_time
  cases excl with
  | none =>
    simp only [List.any_eq_true, List.mem_filter, Bool.and_eq_true, beq_iff_eq,
      decide_eq_true_eq]
    constructor
    · rintro ⟨a, ⟨ha, h1, h2⟩, h3, h4⟩
      refine ⟨a, ha, h1, h2, ?_, h3, h4⟩
      intro e he
      cases he
    · rintro ⟨a, ha, h1, h2, -, h3, h4⟩
      exact ⟨a, ⟨ha, h1, h2⟩, h3, h4⟩
  | some e =>
    by_cases he : e = 0
    · subst he
      simp only [reduceIte, List.any_eq_true, List.mem_filter, Bool.and_eq_true,
        beq_iff_eq, decide_eq_true_eq]
      constructor
      · rintro ⟨a, ⟨ha, h1, h2⟩, h3, h4⟩
        refine ⟨a, ha, h1, h2, ?_, h3, h4⟩
        intro e' he'
        cases he'
        exact hpos a ha
      · rintro ⟨a, ha, h1, h2, -, h3, h4⟩
        exact ⟨a, ⟨ha, h1, h2⟩, h3, h4⟩
    · simp only [if_neg he, List.any_eq_true, List.mem_filter, Bool.and_eq_true,
        beq_iff_eq, decide_eq_true_eq, bne_iff_ne]
      constructor
      · rintro ⟨a, ⟨⟨ha, h1, h2⟩, hne⟩, h3, h4⟩
        refine ⟨a, ha, h1, h2, ?_, h3, h4⟩
        intro e' he'
        cases he'
        exact hne
      · rintro ⟨a, ha, h1, h2, hx, h3, h4⟩
        exact ⟨a, ⟨⟨ha, h1, h2⟩, hx e rfl⟩, h3, h4⟩

/-- C1: `has_conflict(stylist_id, start_time, duration_minutes, exclude_id)`
returns true iff some stored appointment of that stylist with status
`'scheduled'` (and id different from `exclude_id` when one is given) has a
half-open interval `[start, start+duration)` overlapping the candidate
interval under the rule `s1 < e2 ∧ s2 < e1`; touching endpoints are therefore
never a conflict.  (The ids-are-nonzero hypothesis reflects the autoincrement
primary key; it separates Python's falsy `exclude_id=0` from a real id.) -/
theorem has_conflict_spec (s : Store) (sid : Nat) (t : Int) (dur : Nat)
    (excl : Option Nat) (hpos : ∀ a ∈ s.appointments, a.id ≠ 0) :
    Appointment.has_conflict s sid t dur excl = true ↔
      ∃ a ∈ s.appointments, a.stylist_id = sid ∧ a.status = "scheduled" ∧
        (∀ e, excl = some e → a.id ≠ e) ∧
        t < a.appointment_date + a.duration_minutes * usPerMinute ∧
        a.appointment_date < t + dur * usPerMinute :=
  has_conflict_characterization s sid t dur excl hpos

/-- A one-stylist store exercising `has_conflict`: one scheduled appointment
on stylist 1 over `[600000000, 1200000000)` (minutes 10 to 20). -/
def conflictDemoStore : Store :=
  { clients := [], stylists := [], services := [],
    appointments := [
      { id := 1, client_id := 1, stylist_id := 1, service_id := 1,
        appointment_date := 600000000, duration_minutes := 10,
        total_price := 50 }] }

theorem has_conflict_spec_witness :
    (∀ a ∈ conflictDemoStore.appointments, a.id ≠ 0) ∧
      (Appointment.has_conflict conflictDemoStore 1 0 15 none = true ↔
        ∃ a ∈ conflictDemoStore.appointments, a.stylist_id = 1 ∧
          a.status = "scheduled" ∧ (∀ e, (none : Option Nat) = some e → a.id ≠ e) ∧
          (0 : Int) < a.appointment_date + a.duration_minutes * usPerMinute ∧
          a.appointment_date < 0 + 15 * usPerMinute) :=
  ⟨by decide, has_conflict_spec conflictDemoStore 1 0 15 none (by decide)⟩

/-! Helper: `find?` by id after an id-preserving replacement keyed on id. -/

theorem find?_map_replace (g : Appointment → Appointment)
    (hg : ∀ b, (g b).id = b.id) (aid : Nat) (l : List Appointment)
    (a : Appointment) (h : l.find? (fun b => b.id == aid) = some a) :
    (l.map (fun b => if b.id == aid then g b else b)).find?
      (fun b => b.id == aid) = some (g a) := by
  induction l with
  | nil => simp [List.find?] at h
  | cons c cs ih =>
    by_cases hc : c.id = aid
    · have hcb : (c.id == aid) = true := beq_iff_eq.mpr hc
      simp only [List.find?_cons, hcb] at h
      cases h
      simp [List.find?_cons, hc, hg]
    · have hcb : (c.id == aid) = false := by simp [hc]
      simp only [List.find?_cons, hcb] at h
      simp only [List.map_cons, List.find?_cons, hcb, Bool.false_eq_true,
        if_false]
      exact ih h

/-- Variant of `find?_map_replace` where every id-match is replaced by one
fixed record `a2` carrying the looked-up id. -/
theorem find?_map_replace_const (aid : Nat) (a2 : Appointment)
    (ha2 : a2.id = aid) (l : List Appointment) (a : Appointment)
    (h : l.find? (fun b => b.id == aid) = some a) :
    (l.map (fun b => if b.id == aid then a2 else b)).find?
      (fun b => b.id == aid) = some a2 := by
  induction l with
  | nil => simp [List.find?] at h
  | cons c cs ih =>
    by_cases hc : c.id = aid
    · simp [List.find?_cons, hc, ha2]
    · have hcb : (c.id == aid) = false := by simp [hc]
      simp only [List.find?_cons, hcb] at h
      simp only [List.map_cons, List.find?_cons, hcb, Bool.false_eq_true,
        if_false]
      exact ih h

/-- C7: on an existing appointment, assigning a status outside
{scheduled, completed, cancelled, no-show} fails with the validator's error
and leaves the store (hence the prior status) unchanged; assigning any of the
four enumerated values succeeds and stores that status. -/
theorem status_assignment_spec (s : Store) (aid : Nat) (v : String)
    (a : Appointment) (h : Appointment.find_by_id s aid = some a) :
    (v ∉ valid_statuses →
      set_appointment_status s aid v = (s, Except.error status_error_msg)) ∧
    (v ∈ valid_statuses →
      (set_appointment_status s aid v).2 = Except.ok () ∧
      Appointment.find_by_id (set_appointment_status s aid v).1 aid =
        some { a with status := v }) := by
  constructor
  · intro hv
    simp only [set_appointment_status, h, Appointment.assign_status,
      validate_status, if_neg hv]
  · intro hv
    have haid : a.id = aid := by
      have := List.find?_some h
      exact beq_iff_eq.mp this
    simp only [set_appointment_status, h, Appointment.assign_status,
      validate_status, if_pos hv]
    refine ⟨by trivial, ?_⟩
    unfold Appointment.find_by_id
    exact find?_map_replace_const aid { a with status := v } haid
      s.appointments a h

/-- A store with one scheduled appointment, id 1, for witnesses. -/
def oneApptStore : Store :=
  { clients := [], stylists := [], services := [],
    appointments := [
      { id := 1, client_id := 1, stylist_id := 1, service_id := 1,
        appointment_date := 600000000, duration_minutes := 30,
        total_price := 50 }] }

theorem status_assignment_spec_witness :
    ("late" ∉ valid_statuses →
      set_appointment_status oneApptStore 1 "late" =
        (oneApptStore, Except.error status_error_msg)) ∧
    ("late" ∈ valid_statuses →
      (set_appointment_status oneApptStore 1 "late").2 = Except.ok () ∧
      Appointment.find_by_id (set_appointment_status oneApptStore 1 "late").1 1 =
        some { id := 1, client_id := 1, stylist_id := 1, service_id := 1,
               appointment_date := 600000000, duration_minutes := 30,
               status := "late", total_price := 50 }) :=
  status_assignment_spec oneApptStore 1 "late"
    { id := 1, client_id := 1, stylist_id := 1, service_id := 1,
      appointment_date := 600000000, duration_minutes := 30,
      total_price := 50 } (by decide)

/-- C6: `cancel` on an existing appointment succeeds and sets its status to
`'cancelled'`; cancelling the same id a second time succeeds and changes
nothing (all fields as after the first call); for an unknown id it fails
(Python returns `False`, the rendering of the spec's `NotFoundError`) and the
store is untouched. -/
theorem cancel_spec (s : Store) (aid : Nat) :
    (∀ a, Appointment.find_by_id s aid = some a →
      (Appointment.cancel s aid).2 = true ∧
      Appointment.find_by_id (Appointment.cancel s aid).1 aid =
        some { a with status := "cancelled" } ∧
      Appointment.cancel (Appointment.cancel s aid).1 aid =
        ((Appointment.cancel s aid).1, true)) ∧
    (Appointment.find_by_id s aid = none → Appointment.cancel s aid = (s, false)) := by
  constructor
  · intro a h
    have key : Appointment.cancel s aid =
        ({ s with appointments := (s.appointments.map (fun b => if b.id == aid then { b with status := "cancelled" } else b)) }, true) := by
      simp only [Appointment.cancel, h]
    have hfind2 :
        Appointment.find_by_id (Appointment.cancel s aid).1 aid =
          some { a with status := "cancelled" } := by
      rw [key]
      unfold Appointment.find_by_id
      exact find?_map_replace (fun b => { b with status := "cancelled" })
        (fun _ => rfl) aid s.appointments a h
    refine ⟨by rw [key], hfind2, ?_⟩
    have hmap :
        (s.appointments.map (fun b =>
            if b.id == aid then { b with status := "cancelled" } else b)).map
          (fun b => if b.id == aid then { b with status := "cancelled" } else b) =
        s.appointments.map (fun b =>
            if b.id == aid then { b with status := "cancelled" } else b) := by
      rw [List.map_map]
      apply List.map_congr_left
      intro b _
      by_cases hb : b.id = aid
      · have hbb : (b.id == aid) = true := beq_iff_eq.mpr hb
        simp only [Function.comp_apply, if_pos hbb]
      · have hbb : (b.id == aid) = false := by simp [hb]
        simp only [Function.comp_apply, hbb, Bool.false_eq_true, if_false]
    rw [key] at hfind2 ⊢
    simp only [Appointment.cancel, hfind2]
    simp only [hmap]
  · intro h
    simp only [Appointment.cancel, h]

theorem cancel_spec_witness :
    (Appointment.cancel oneApptStore 1).2 = true ∧
    Appointment.find_by_id (Appointment.cancel oneApptStore 1).1 1 =
      some { id := 1, client_id := 1, stylist_id := 1, service_id := 1,
             appointment_date := 600000000, duration_minutes := 30,
             status := "cancelled", total_price := 50 } ∧
    Appointment.cancel (Appointment.cancel oneApptStore 1).1 1 =
      ((Appointment.cancel oneApptStore 1).1, true) :=
  (cancel_spec oneApptStore 1).1
    { id := 1, client_id := 1, stylist_id := 1, service_id := 1,
      appointment_date := 600000000, duration_minutes := 30,
      total_price := 50 } (by decide)

/-- C5: `get_daily_revenue(date)` is the sum of `total_price` over exactly the
appointments whose status is `'completed'` and whose start falls in the day's
half-open window `[00:00, 24:00)`; at microsecond resolution the source's
closed filter up to `time.max` coincides with the half-open window, and
appointments of any other status contribute nothing. -/
theorem get_daily_revenue_spec (s : Store) (d : Int) :
    Appointment.get_daily_revenue s d =
      ((s.appointments.filter (fun a => a.status == "completed" && decide (d * usPerDay ≤ a.appointment_date) && decide (a.appointment_date < (d + 1) * usPerDay))).map (fun a => a.total_price)).sum := by
  unfold Appointment.get_daily_revenue Appointment.find_by_date
  congr 2
  rw [List.filter_filter]
  apply List.filter_congr
  intro a _
  cases hst : a.status == "completed"
  · simp [hst]
  · simp only [hst, Bool.true_and, Bool.and_true]
    have : (a.appointment_date ≤ d * usPerDay + (usPerDay - 1)) ↔
        (a.appointment_date < (d + 1) * usPerDay) := by
      unfold usPerDay
      omega
    rcases this with ⟨h1, h2⟩
    by_cases hlo : d * usPerDay ≤ a.appointment_date
    · simp [hlo]
      constructor
      · intro hhi
        exact h1 hhi
      · intro hhi
        exact h2 hhi
    · simp [hlo]

/-! Support lemmas for the scheduling invariant. -/

theorem applyAssigns_fields (l : List FieldAssign) :
    ∀ (a : Appointment), (∀ f ∈ l, f.is_status = false) →
      (applyAssigns a l).2 = none ∧
      ((applyAssigns a l).1).status = a.status ∧
      ((applyAssigns a l).1).appointment_date = new_date l a.appointment_date ∧
      ((applyAssigns a l).1).duration_minutes = new_duration l a.duration_minutes := by
  induction l with
  | nil => exact fun a _ => ⟨rfl, rfl, rfl, rfl⟩
  | cons f rest ih =>
    intro a h
    have hrest : ∀ g ∈ rest, g.is_status = false :=
      fun g hg => h g (List.mem_cons_of_mem f hg)
    cases f with
    | set_status v =>
      exact absurd (h _ (List.mem_cons_self _ _))
        (by simp [FieldAssign.is_status])
    | set_date t =>
      simpa [applyAssigns, new_date, new_duration]
        using ih { a with appointment_date := t } hrest
    | set_duration n =>
      simpa [applyAssigns, new_date, new_duration]
        using ih { a with duration_minutes := n } hrest
    | set_stylist i =>
      simpa [applyAssigns, new_date, new_duration]
        using ih { a with stylist_id := i } hrest
    | set_client i =>
      simpa [applyAssigns, new_date, new_duration]
        using ih { a with client_id := i } hrest
    | set_service i =>
      simpa [applyAssigns, new_date, new_duration]
        using ih { a with service_id := i } hrest
    | set_notes v =>
      simpa [applyAssigns, new_date, new_duration]
        using ih { a with notes := v } hrest
    | set_price p =>
      simpa [applyAssigns, new_date, new_duration]
        using ih { a with total_price := p } hrest

theorem applyAssigns_stylist (l : List FieldAssign) :
    ∀ (a : Appointment), (∀ f ∈ l, f.is_stylist = false) →
      ((applyAssigns a l).1).stylist_id = a.stylist_id := by
  induction l with
  | nil => exact fun a _ => rfl
  | cons f rest ih =>
    intro a h
    have hrest : ∀ g ∈ rest, g.is_stylist = false :=
      fun g hg => h g (List.mem_cons_of_mem f hg)
    cases f with
    | set_stylist i =>
      exact absurd (h _ (List.mem_cons_self _ _))
        (by simp [FieldAssign.is_stylist])
    | set_status v =>
      by_cases hv : v ∈ valid_statuses
      · simpa [applyAssigns, if_pos hv] using ih { a with status := v } hrest
      · simp [applyAssigns, if_neg hv]
    | set_date t =>
      simpa [applyAssigns] using ih { a with appointment_date := t } hrest
    | set_duration n =>
      simpa [applyAssigns] using ih { a with duration_minutes := n } hrest
    | set_client i =>
      simpa [applyAssigns] using ih { a with client_id := i } hrest
    | set_service i =>
      simpa [applyAssigns] using ih { a with service_id := i } hrest
    | set_notes v =>
      simpa [applyAssigns] using ih { a with notes := v } hrest
    | set_price p =>
      simpa [applyAssigns] using ih { a with total_price := p } hrest

theorem has_conflict_none_false_elim (s : Store) (sid : Nat) (t : Int)
    (dur : Nat) (h : Appointment.has_conflict s sid t dur none = false) :
    ∀ x ∈ s.appointments, x.stylist_id = sid → x.status = "scheduled" →
      ¬(t < x.appointment_date + x.duration_minutes * usPerMinute ∧
        x.appointment_date < t + dur * usPerMinute) := by
  intro x hx h1 h2 hover
  have hc : Appointment.has_conflict s sid t dur none = true := by
    unfold Appointment.has_conflict Appointment.end_time
    simp only [List.any_eq_true, List.mem_filter, Bool.and_eq_true, beq_iff_eq,
      decide_eq_true_eq]
    exact ⟨x, ⟨hx, h1, h2⟩, hover.1, hover.2⟩
  rw [h] at hc
  cases hc

theorem has_conflict_some_false_elim (s : Store) (sid : Nat) (t : Int)
    (dur : Nat) (e : Nat)
    (h : Appointment.has_conflict s sid t dur (some e) = false) :
    ∀ x ∈ s.appointments, x.id ≠ e → x.stylist_id = sid →
      x.status = "scheduled" →
      ¬(t < x.appointment_date + x.duration_minutes * usPerMinute ∧
        x.appointment_date < t + dur * usPerMinute) := by
  intro x hx hne h1 h2 hover
  have hc : Appointment.has_conflict s sid t dur (some e) = true := by
    unfold Appointment.has_conflict Appointment.end_time
    by_cases he : e = 0
    · subst he
      simp only [reduceIte, List.any_eq_true, List.mem_filter, Bool.and_eq_true,
        beq_iff_eq, decide_eq_true_eq]
      exact ⟨x, ⟨hx, h1, h2⟩, hover.1, hover.2⟩
    · simp only [if_neg he, List.any_eq_true, List.mem_filter, Bool.and_eq_true,
        beq_iff_eq, decide_eq_true_eq, bne_iff_ne]
      exact ⟨x, ⟨⟨hx, h1, h2⟩, hne⟩, hover.1, hover.2⟩
  rw [h] at hc
  cases hc

theorem new_date_of_no_set (l : List FieldAssign) :
    ∀ cur, (∀ f ∈ l, f.is_date = false) → new_date l cur = cur := by
  induction l with
  | nil => exact fun _ _ => rfl
  | cons f rest ih =>
    intro cur h
    have hrest : ∀ g ∈ rest, g.is_date = false :=
      fun g hg => h g (List.mem_cons_of_mem f hg)
    cases f with
    | set_date t =>
      exact absurd (h _ (List.mem_cons_self _ _)) (by simp [FieldAssign.is_date])
    | set_duration n => exact ih cur hrest
    | set_stylist i => exact ih cur hrest
    | set_client i => exact ih cur hrest
    | set_service i => exact ih cur hrest
    | set_status v => exact ih cur hrest
    | set_notes v => exact ih cur hrest
    | set_price p => exact ih cur hrest

theorem new_duration_of_no_set (l : List FieldAssign) :
    ∀ cur, (∀ f ∈ l, f.is_duration = false) → new_duration l cur = cur := by
  induction l with
  | nil => exact fun _ _ => rfl
  | cons f rest ih =>
    intro cur h
    have hrest : ∀ g ∈ rest, g.is_duration = false :=
      fun g hg => h g (List.mem_cons_of_mem f hg)
    cases f with
    | set_duration n =>
      exact absurd (h _ (List.mem_cons_self _ _))
        (by simp [FieldAssign.is_duration])
    | set_date t => exact ih cur hrest
    | set_stylist i => exact ih cur hrest
    | set_client i => exact ih cur hrest
    | set_service i => exact ih cur hrest
    | set_status v => exact ih cur hrest
    | set_notes v => exact ih cur hrest
    | set_price p => exact ih cur hrest

/-- Two same-time appointments on different stylists: moving the second onto
stylist 1 by an update that touches only `stylist_id`. -/
def doubleBookStore : Store :=
  { clients := [], stylists := [], services := [],
    appointments := [
      { id := 1, client_id := 1, stylist_id := 1, service_id := 1,
        appointment_date := 0, duration_minutes := 60, total_price := 50 },
      { id := 2, client_id := 2, stylist_id := 2, service_id := 1,
        appointment_date := 0, duration_minutes := 60, total_price := 50 }] }

/-- C2 counterexample: an update that changes only `stylist_id` runs no
conflict check (the source re-checks only when `appointment_date` or
`duration_minutes` is among the kwargs, and against the *old* stylist), so it
succeeds and leaves stylist 1 double-booked. -/
theorem update_stylist_only_breaks_invariant :
    no_double_booking doubleBookStore ∧
    (Appointment.update doubleBookStore 2 [FieldAssign.set_stylist 1]).2 =
      Except.ok (some
        { id := 2, client_id := 2, stylist_id := 1, service_id := 1,
          appointment_date := 0, duration_minutes := 60, total_price := 50 }) ∧
    ¬ no_double_booking
        (Appointment.update doubleBookStore 2 [FieldAssign.set_stylist 1]).1 :=
  ⟨by decide, rfl, by decide⟩

/-- C2 (amended): the no-double-booking invariant is preserved by every
successful `create`, and by every `update` whose field changes include
neither `stylist_id` nor `status` (the source skips the conflict check when
only `stylist_id` changes, and never re-checks a `status` change, so those
updates can break the invariant — see the counterexample).  Ids are assumed
pairwise distinct, as the primary key guarantees. -/
theorem create_update_preserve_schedule_invariant :
    (∀ (s : Store) (args : CreateArgs) (s2 : Store) (a : Appointment),
        no_double_booking s →
        Appointment.create s args = Except.ok (s2, a) →
        no_double_booking s2) ∧
    (∀ (s : Store) (aid : Nat) (assigns : List FieldAssign),
        no_double_booking s →
        (s.appointments.map (fun a => a.id)).Nodup →
        (∀ f ∈ assigns, f.is_stylist = false ∧ f.is_status = false) →
        no_double_booking (Appointment.update s aid assigns).1) := by
  constructor
  · intro s args s2 a hinv hok
    unfold Appointment.create at hok
    by_cases hc : Appointment.has_conflict s args.stylist_id
        args.appointment_date args.duration_minutes none = true
    · rw [if_pos hc] at hok
      simp at hok
    · rw [if_neg hc] at hok
      have hfalse : Appointment.has_conflict s args.stylist_id
          args.appointment_date args.duration_minutes none = false := by
        simpa using hc
      injection hok with hpair
      injection hpair with hs2 ha
      subst hs2
      subst ha
      unfold no_double_booking at hinv ⊢
      refine List.pairwise_append.mpr ⟨hinv, by simp, ?_⟩
      intro x hx y hy
      have hy' : y = _ := List.mem_singleton.mp hy
      subst hy'
      intro hstyl hxs _ hov
      have helim := has_conflict_none_false_elim s args.stylist_id
        args.appointment_date args.duration_minutes hfalse x hx hstyl hxs
      unfold overlapping Appointment.end_time at hov
      exact helim ⟨hov.2, hov.1⟩
  · intro s aid assigns hinv hnodup hf
    have hfsty : ∀ f ∈ assigns, f.is_stylist = false := fun f h2 => (hf f h2).1
    have hfst : ∀ f ∈ assigns, f.is_status = false := fun f h2 => (hf f h2).2
    cases hfind : Appointment.find_by_id s aid with
    | none =>
      have hupd : Appointment.update s aid assigns = (s, .ok none) := by
        unfold Appointment.update
        rw [hfind]
      rw [hupd]
      exact hinv
    | some a =>
      obtain ⟨hres2, hstatus, hdate, hdur⟩ := applyAssigns_fields assigns a hfst
      have hstyl_pres := applyAssigns_stylist assigns a hfsty
      have hfind' : List.find? (fun b : Appointment => b.id == aid)
          s.appointments = some a := hfind
      have haid : a.id = aid := by
        have hp := List.find?_some hfind'
        simpa using hp
      have hamem : a ∈ s.appointments := List.mem_of_find?_eq_some hfind'
      by_cases hcond :
          ((assigns.any FieldAssign.is_date || assigns.any FieldAssign.is_duration) &&
            Appointment.has_conflict s a.stylist_id
              (new_date assigns a.appointment_date)
              (new_duration assigns a.duration_minutes) (some aid)) = true
      · have hupd : Appointment.update s aid assigns =
            (s, .error conflict_error_msg) := by
          unfold Appointment.update
          rw [hfind]
          show (if _ then _ else _) = _
          rw [if_pos hcond]
        rw [hupd]
        exact hinv
      · have hupd : (Appointment.update s aid assigns).1 =
            { s with appointments := (s.appointments.map (fun b => if b.id == aid then (applyAssigns a assigns).1 else b)) } := by
          unfold Appointment.update
          rw [hfind]
          show ((if _ then _ else _) : Store × Except String (Option Appointment)).1 = _
          rw [if_neg hcond]
          simp only [hres2]
        rw [hupd]
        unfold no_double_booking
        refine List.pairwise_map.mpr ?_
        have hids : s.appointments.Pairwise (fun x y => x.id ≠ y.id) := by
          have h2 := hnodup
          unfold List.Nodup at h2
          exact List.pairwise_map.mp h2
        refine List.Pairwise.imp_of_mem ?_ (hinv.and hids)
        intro x y hxmem hymem hxy
        obtain ⟨hR, hneq⟩ := hxy
        by_cases hx : x.id = aid <;> by_cases hy : y.id = aid
        · exact absurd (hx.trans hy.symm) hneq
        · -- x is the updated row
          have hxa : x = a := List.inj_on_of_nodup_map hnodup hxmem hamem
            (by rw [hx, haid])
          subst hxa
          have hfa : (if x.id == aid then (applyAssigns x assigns).1 else x) =
              (applyAssigns x assigns).1 := if_pos (beq_iff_eq.mpr haid)
          have hfy : (if y.id == aid then (applyAssigns x assigns).1 else y) = y :=
            if_neg (by simp [hy])
          simp only [hfa, hfy]
          intro hstyl hs2 hys hov
          have hystyl : y.stylist_id = x.stylist_id := hstyl.symm.trans hstyl_pres
          by_cases hdd : (assigns.any FieldAssign.is_date ||
              assigns.any FieldAssign.is_duration) = true
          · have hcf : Appointment.has_conflict s x.stylist_id
                (new_date assigns x.appointment_date)
                (new_duration assigns x.duration_minutes) (some aid) = false := by
              by_cases hB : Appointment.has_conflict s x.stylist_id
                  (new_date assigns x.appointment_date)
                  (new_duration assigns x.duration_minutes) (some aid) = true
              · exact absurd (by rw [Bool.and_eq_true]; exact ⟨hdd, hB⟩) hcond
              · simpa using hB
            have helim := has_conflict_some_false_elim s x.stylist_id
              (new_date assigns x.appointment_date)
              (new_duration assigns x.duration_minutes) aid hcf y hymem hy
              hystyl hys
            unfold overlapping Appointment.end_time at hov
            rw [hdate, hdur] at hov
            exact helim hov
          · have hAB : (∀ f ∈ assigns, f.is_date = false) ∧
                (∀ f ∈ assigns, f.is_duration = false) := by simpa using hdd
            have hnd : new_date assigns x.appointment_date = x.appointment_date :=
              new_date_of_no_set assigns _ hAB.1
            have hndur : new_duration assigns x.duration_minutes =
                x.duration_minutes :=
              new_duration_of_no_set assigns _ hAB.2
            have has : x.status = "scheduled" := by
              rw [hstatus] at hs2
              exact hs2
            have hov' : overlapping x y := by
              unfold overlapping Appointment.end_time at hov ⊢
              rw [hdate, hnd, hdur, hndur] at hov
              exact hov
            exact hR hystyl.symm has hys hov'
        · -- y is the updated row
          have hya : y = a := List.inj_on_of_nodup_map hnodup hymem hamem
            (by rw [hy, haid])
          subst hya
          have hfa : (if y.id == aid then (applyAssigns y assigns).1 else y) =
              (applyAssigns y assigns).1 := if_pos (beq_iff_eq.mpr haid)
          have hfx : (if x.id == aid then (applyAssigns y assigns).1 else x) = x :=
            if_neg (by simp [hx])
          simp only [hfa, hfx]
          intro hstyl hxs hs2 hov
          have hxstyl : x.stylist_id = y.stylist_id := hstyl.trans hstyl_pres
          by_cases hdd : (assigns.any FieldAssign.is_date ||
              assigns.any FieldAssign.is_duration) = true
          · have hcf : Appointment.has_conflict s y.stylist_id
                (new_date assigns y.appointment_date)
                (new_duration assigns y.duration_minutes) (some aid) = false := by
              by_cases hB : Appointment.has_conflict s y.stylist_id
                  (new_date assigns y.appointment_date)
                  (new_duration assigns y.duration_minutes) (some aid) = true
              · exact absurd (by rw [Bool.and_eq_true]; exact ⟨hdd, hB⟩) hcond
              · simpa using hB
            have helim := has_conflict_some_false_elim s y.stylist_id
              (new_date assigns y.appointment_date)
              (new_duration assigns y.duration_minutes) aid hcf x hxmem hx
              hxstyl hxs
            unfold overlapping Appointment.end_time at hov
            rw [hdate, hdur] at hov
            exact helim ⟨hov.2, hov.1⟩
          · have hAB : (∀ f ∈ assigns, f.is_date = false) ∧
                (∀ f ∈ assigns, f.is_duration = false) := by simpa using hdd
            have hnd : new_date assigns y.appointment_date = y.appointment_date :=
              new_date_of_no_set assigns _ hAB.1
            have hndur : new_duration assigns y.duration_minutes =
                y.duration_minutes :=
              new_duration_of_no_set assigns _ hAB.2
            have has : y.status = "scheduled" := by
              rw [hstatus] at hs2
              exact hs2
            have hov' : overlapping x y := by
              unfold overlapping Appointment.end_time at hov ⊢
              rw [hdate, hnd, hdur, hndur] at hov
              exact hov
            exact hR hxstyl hxs has hov'
        · -- neither row changed
          have hfx : (if x.id == aid then (applyAssigns a assigns).1 else x) = x :=
            if_neg (by simp [hx])
          have hfy : (if y.id == aid then (applyAssigns a assigns).1 else y) = y :=
            if_neg (by simp [hy])
          simp only [hfx, hfy]
          exact hR


/-- An empty store for exercising `create`. -/
def emptyStore : Store :=
  { clients := [], stylists := [], services := [], appointments := [] }

theorem create_update_preserve_schedule_invariant_witness :
    no_double_booking
      { emptyStore with appointments := [
          { id := 1, client_id := 1, stylist_id := 1, service_id := 1,
            appointment_date := 0, duration_minutes := 60, total_price := 50 }] } ∧
    no_double_booking
      (Appointment.update oneApptStore 1 [FieldAssign.set_date 0]).1 :=
  ⟨create_update_preserve_schedule_invariant.1 emptyStore
      { client_id := 1, stylist_id := 1, service_id := 1,
        appointment_date := 0, duration_minutes := 60, total_price := 50 }
      _ _ (by decide) rfl,
    create_update_preserve_schedule_invariant.2 oneApptStore 1
      [FieldAssign.set_date 0] (by decide) (by decide) (by decide)⟩

/-! Claims C3 and C10: deleting a client. -/

/-- A client that owns one appointment. -/
def clientWithApptStore : Store :=
  { clients := [
      { id := 1, first_name := "Ada", last_name := "Lee",
        phone := "5551234567" }],
    stylists := [], services := [],
    appointments := [
      { id := 1, client_id := 1, stylist_id := 1, service_id := 1,
        appointment_date := 0, duration_minutes := 30, total_price := 40 }] }

/-- The same client with no appointments. -/
def clientNoApptStore : Store :=
  { clients := [
      { id := 1, first_name := "Ada", last_name := "Lee",
        phone := "5551234567" }],
    stylists := [], services := [], appointments := [] }

/-- C3 counterexample: the core `Client.delete` does not fail on a client
that owns an appointment; it deletes the client and, through the
`delete-orphan` cascade, the appointment as well. -/
theorem client_delete_does_not_block :
    (Client.get_appointments clientWithApptStore 1).length = 1 ∧
    (Client.delete clientWithApptStore 1).2 = true ∧
    Client.find_by_id (Client.delete clientWithApptStore 1).1 1 = none ∧
    (Client.delete clientWithApptStore 1).1.appointments = [] := by
  decide

/-- C3 (amended): the refusal lives in the CLI `delete_client` flow, not the
core: with at least one appointment the CLI refuses and every record stays;
with zero appointments the delete goes through `Client.delete` and the client
is no longer retrievable. -/
theorem client_delete_spec (s : Store) (cid : Nat) :
    ((Client.get_appointments s cid) ≠ [] →
      cli_delete_client s cid = (s, false)) ∧
    (∀ c, Client.find_by_id s cid = some c →
      Client.get_appointments s cid = [] →
      (cli_delete_client s cid).2 = true ∧
      Client.find_by_id (cli_delete_client s cid).1 cid = none) := by
  constructor
  · intro hne
    cases hfc : Client.find_by_id s cid with
    | none => simp [cli_delete_client, hfc]
    | some c =>
      have hemp : (Client.get_appointments s cid).isEmpty = false := by
        cases hl : Client.get_appointments s cid with
        | nil => exact absurd hl hne
        | cons d ds => rfl
      simp [cli_delete_client, hfc, hemp]
  · intro c hfc hemp
    have hcli : cli_delete_client s cid = Client.delete s cid := by
      simp [cli_delete_client, hfc, hemp]
    have hdel : Client.delete s cid =
        ({ s with clients := (s.clients.filter (fun c => c.id != cid)), appointments := (s.appointments.filter (fun a => a.client_id != cid)) }, true) := by
      simp only [Client.delete, hfc]
    rw [hcli, hdel]
    refine ⟨rfl, ?_⟩
    unfold Client.find_by_id
    refine List.find?_eq_none.mpr ?_
    intro x hx
    have hpass := (List.mem_filter.mp hx).2
    simpa using hpass

theorem client_delete_spec_witness :
    cli_delete_client clientWithApptStore 1 = (clientWithApptStore, false) ∧
    ((cli_delete_client clientNoApptStore 1).2 = true ∧
      Client.find_by_id (cli_delete_client clientNoApptStore 1).1 1 = none) :=
  ⟨(client_delete_spec clientWithApptStore 1).1 (by decide),
    (client_delete_spec clientNoApptStore 1).2
      { id := 1, first_name := "Ada", last_name := "Lee",
        phone := "5551234567" } rfl rfl⟩

/-- C10: whenever the core `Client.delete` reports success, the cascade has
removed every appointment owned by that client (the resulting appointment
table is exactly the old one minus that client's rows, so no orphan remains),
and an existing client's delete is never blocked at the store level. -/
theorem client_delete_cascades (s : Store) (cid : Nat) :
    ((Client.delete s cid).2 = true →
      (Client.delete s cid).1.appointments =
        s.appointments.filter (fun a => a.client_id != cid) ∧
      ∀ a ∈ (Client.delete s cid).1.appointments, a.client_id ≠ cid) ∧
    (∀ c, Client.find_by_id s cid = some c →
      (Client.delete s cid).2 = true) := by
  constructor
  · intro h2
    cases hfc : Client.find_by_id s cid with
    | none => simp [Client.delete, hfc] at h2
    | some c =>
      have hdel : Client.delete s cid =
          ({ s with clients := (s.clients.filter (fun c => c.id != cid)), appointments := (s.appointments.filter (fun a => a.client_id != cid)) }, true) := by
        simp only [Client.delete, hfc]
      rw [hdel]
      refine ⟨rfl, ?_⟩
      intro a ha
      have hpass := (List.mem_filter.mp ha).2
      simpa using hpass
  · intro c hfc
    simp [Client.delete, hfc]

theorem client_delete_cascades_witness :
    (Client.delete clientWithApptStore 1).1.appointments =
      clientWithApptStore.appointments.filter (fun a => a.client_id != 1) ∧
    ∀ a ∈ (Client.delete clientWithApptStore 1).1.appointments,
      a.client_id ≠ 1 :=
  (client_delete_cascades clientWithApptStore 1).1 (by decide)


/-! Claim C4: referential checks on appointment creation. -/

/-- A store with a stylist and a service but no clients. -/
def noClientStore : Store :=
  { clients := [],
    stylists := [
      { id := 1, first_name := "Sam", last_name := "Kim",
        phone := "5550000001", email := "sam@salon.test" }],
    services := [
      { id := 1, name := "Cut", duration_minutes := 30, price := 40 }],
    appointments := [] }

/-- C4 counterexample: the core `Appointment.create` performs no existence
check on `client_id`/`stylist_id`/`service_id` (and the SQLite engine is
created without enabling foreign-key enforcement), so creating for a
nonexistent client succeeds and stores a dangling reference instead of
failing. -/
theorem create_ignores_missing_client :
    Client.find_by_id noClientStore 5 = none ∧
    Appointment.create noClientStore
      { client_id := 5, stylist_id := 1, service_id := 1,
        appointment_date := 0, duration_minutes := 30, total_price := 40 } =
      Except.ok
        ({ noClientStore with appointments := [
            { id := 1, client_id := 5, stylist_id := 1, service_id := 1,
              appointment_date := 0, duration_minutes := 30,
              total_price := 40 }] },
          { id := 1, client_id := 5, stylist_id := 1, service_id := 1,
            appointment_date := 0, duration_minutes := 30,
            total_price := 40 }) :=
  ⟨rfl, rfl⟩

/-- C4 (amended): the existence checks live in the CLI scheduling flow, which
looks up each referenced id before ever calling `Appointment.create` and, on
a missing id, reports the failure and creates nothing (the store is returned
unchanged); the core `create` itself never raises `NotFoundError`. -/
theorem cli_schedule_missing_id_spec (s : Store) (now : Int)
    (cid sid svid : Nat) (t : Int) (notes : Option String)
    (h : Client.find_by_id s cid = none ∨ Stylist.find_by_id s sid = none ∨
      Service.find_by_id s svid = none) :
    cli_schedule_appointment s now cid sid svid t notes = (s, none) := by
  rcases h with h | h | h
  · simp [cli_schedule_appointment, h]
  · cases hfc : Client.find_by_id s cid with
    | none => simp [cli_schedule_appointment, hfc]
    | some c => simp [cli_schedule_appointment, hfc, h]
  · cases hfc : Client.find_by_id s cid with
    | none => simp [cli_schedule_appointment, hfc]
    | some c =>
      cases hfs : Stylist.find_by_id s sid with
      | none => simp [cli_schedule_appointment, hfc, hfs]
      | some st =>
        by_cases hact : (st.is_active != 1) = true
        · simp [cli_schedule_appointment, hfc, hfs, hact]
        · have hact2 : (st.is_active != 1) = false := by
            cases hb : (st.is_active != 1) with
            | false => rfl
            | true => exact absurd hb hact
          simp [cli_schedule_appointment, hfc, hfs, hact2, h]

theorem cli_schedule_missing_id_spec_witness :
    cli_schedule_appointment noClientStore 0 5 1 1 0 none =
      (noClientStore, none) :=
  cli_schedule_missing_id_spec noClientStore 0 5 1 1 0 none (Or.inl rfl)

/-! Claim C8: deactivating stylists and services. -/

/-- A stylist and a service, each with a future scheduled appointment
(relative to `now = 0`). -/
def upcomingApptStore : Store :=
  { clients := [],
    stylists := [
      { id := 1, first_name := "Sam", last_name := "Kim",
        phone := "5550000001", email := "sam@salon.test" }],
    services := [
      { id := 1, name := "Cut", duration_minutes := 30, price := 40 }],
    appointments := [
      { id := 1, client_id := 1, stylist_id := 1, service_id := 1,
        appointment_date := 600000000, duration_minutes := 30,
        total_price := 40 }] }

/-- C8 counterexample: the core `Stylist.delete` and `Service.delete` never
look at the appointment table; with a future scheduled appointment present
(upcoming at `now = 0`) they still report success and clear the active
flag. -/
theorem core_delete_ignores_upcoming :
    (upcomingApptStore.appointments.any (fun a =>
        a.stylist_id == 1 && a.service_id == 1 && a.is_upcoming 0)) = true ∧
    (Stylist.delete upcomingApptStore 1).2 = true ∧
    (Stylist.find_by_id (Stylist.delete upcomingApptStore 1).1 1).map
      (fun st => st.is_active) = some 0 ∧
    (Service.delete upcomingApptStore 1).2 = true ∧
    (Service.find_by_id (Service.delete upcomingApptStore 1).1 1).map
      (fun sv => sv.is_active) = some 0 := by
  decide

/-- C8 (amended): the block is enforced by the CLI deactivation flows, not by
the core deletes: while the stylist (resp. service) has an appointment with
status `'scheduled'` whose start is not in the past, `deactivate_stylist`
(resp. `deactivate_service`) refuses and the store — hence the active flag —
is unchanged. -/
theorem cli_deactivate_blocked_spec (s : Store) (now : Int)
    (sid svid : Nat) :
    ((∃ a ∈ s.appointments, a.stylist_id = sid ∧ a.is_upcoming now = true) →
      cli_deactivate_stylist s now sid = (s, false)) ∧
    ((∃ a ∈ s.appointments, a.service_id = svid ∧ a.is_upcoming now = true) →
      cli_deactivate_service s now svid = (s, false)) := by
  constructor
  · rintro ⟨a, ha, h1, h2⟩
    cases hfs : Stylist.find_by_id s sid with
    | none => simp [cli_deactivate_stylist, hfs]
    | some st =>
      have hany : (Stylist.get_appointments s sid).any
          (fun a => a.is_upcoming now) = true := by
        refine List.any_eq_true.mpr ⟨a, ?_, h2⟩
        exact List.mem_filter.mpr ⟨ha, by simp [h1]⟩
      simp [cli_deactivate_stylist, hfs, hany]
  · rintro ⟨a, ha, h1, h2⟩
    cases hfs : Service.find_by_id s svid with
    | none => simp [cli_deactivate_service, hfs]
    | some sv =>
      have hany : (Service.get_appointments s svid).any
          (fun a => a.is_upcoming now) = true := by
        refine List.any_eq_true.mpr ⟨a, ?_, h2⟩
        exact List.mem_filter.mpr ⟨ha, by simp [h1]⟩
      simp [cli_deactivate_service, hfs, hany]

theorem cli_deactivate_blocked_spec_witness :
    cli_deactivate_stylist upcomingApptStore 0 1 = (upcomingApptStore, false) ∧
    cli_deactivate_service upcomingApptStore 0 1 = (upcomingApptStore, false) :=
  ⟨(cli_deactivate_blocked_spec upcomingApptStore 0 1 1).1 (by decide),
    (cli_deactivate_blocked_spec upcomingApptStore 0 1 1).2 (by decide)⟩

/-! Claim C9: atomicity of failing operations. -/

/-- C9: a failing `update` is *not* atomic.  Updating appointment 1 with the
kwargs `appointment_date=0, status='confirmed'` raises the status
`ValueError`, but the `setattr` loop has already written the new
`appointment_date` to the live object, and the session (flushed by any later
commit) keeps it: the store after the failed call differs from the store
before it. -/
theorem update_invalid_status_partial_write :
    (Appointment.update oneApptStore 1
        [FieldAssign.set_date 0, FieldAssign.set_status "confirmed"]).2 =
      Except.error status_error_msg ∧
    Appointment.find_by_id
      (Appointment.update oneApptStore 1
        [FieldAssign.set_date 0, FieldAssign.set_status "confirmed"]).1 1 =
      some { id := 1, client_id := 1, stylist_id := 1, service_id := 1,
             appointment_date := 0, duration_minutes := 30,
             total_price := 50 } ∧
    (Appointment.update oneApptStore 1
        [FieldAssign.set_date 0, FieldAssign.set_status "confirmed"]).1 ≠
      oneApptStore :=
  ⟨rfl, rfl, by decide⟩

end SalonPro
